import Mathlib

/-!
Verification of the geometry/state engine of `react-native-image-editor-ui`
(`src/index.tsx`).  The engine is embedded shallowly: the mutable shared
values (`imageAnimatedValues`, `cropperAnimatedValues`) become records, each
gesture-handler callback becomes a pure state-transformer, and machine
floats become exact rationals.
-/

set_option autoImplicit false

namespace ImageEditor

/-- `CROP_PAN_GESTURE_HIT_SLOP = 20` from `src/index.tsx`. -/
def CROP_PAN_GESTURE_HIT_SLOP : ℚ := 20

/-- `CROPPER_BORDER_WIDTH = 2` from `src/index.tsx`. -/
def CROPPER_BORDER_WIDTH : ℚ := 2

/-- `CROPPER_MIN_SIZE = CROP_PAN_GESTURE_HIT_SLOP + CROPPER_BORDER_WIDTH * 2`. -/
def CROPPER_MIN_SIZE : ℚ := CROP_PAN_GESTURE_HIT_SLOP + CROPPER_BORDER_WIDTH * 2

/-- Reanimated's `clamp(value, min, max) = Math.min(Math.max(value, min), max)`. -/
def rclamp (value lo hi : ℚ) : ℚ := min (max value lo) hi

/-- A rectangle `{left, top, width, height}` in canvas-absolute coordinates. -/
@[ext] structure Rect where
  left : ℚ
  top : ℚ
  width : ℚ
  height : ℚ
  deriving Repr, DecidableEq

/-- The value held by `imageAnimatedValues` (TransformState of the spec). -/
@[ext] structure ImageVals where
  left : ℚ
  top : ℚ
  width : ℚ
  height : ℚ
  isFlippedX : Bool
  isFlippedY : Bool
  rotation : ℕ
  zoomLevel : ℚ
  deriving Repr, DecidableEq

/-- The full mutable state of the editor: `imageAnimatedValues` together with
`cropperAnimatedValues` (CropRect of the spec). -/
@[ext] structure EditorState where
  image : ImageVals
  cropper : Rect
  deriving Repr, DecidableEq

/-- The resolved source-image descriptor (`imageFileWidth`, `imageFileHeight`). -/
@[ext] structure SourceImage where
  pixelWidth : ℚ
  pixelHeight : ℚ
  deriving Repr, DecidableEq

/-- The normalized crop result handed to the downstream image processor. -/
@[ext] structure EditResult where
  cropLeftOffset : ℚ
  cropTopOffset : ℚ
  cropWidth : ℚ
  cropHeight : ℚ
  isFlippedX : Bool
  isFlippedY : Bool
  rotation : ℕ
  zoomLevel : ℚ
  deriving Repr, DecidableEq

/-- `initialImageLayout` from `src/index.tsx`: contain the image inside the
canvas and center it.  Mirrors the mutation sequence of the `useMemo` body:
`width/height/left/top` start at the canvas values and are overridden by the
branch taken. -/
def initialImageLayout (canvasWidth canvasHeight imageAspect : ℚ) : Rect :=
  let canvasAspect := canvasWidth / canvasHeight
  if imageAspect > canvasAspect then
    { left := 0
      top := (canvasHeight - canvasWidth / imageAspect) / 2
      width := canvasWidth
      height := canvasWidth / imageAspect }
  else
    { left := (canvasWidth - canvasHeight * imageAspect) / 2
      top := 0
      width := canvasHeight * imageAspect
      height := canvasHeight }

/-- The initial values of the two shared-value records: both are seeded from
`initialImageLayout`, with no flips, rotation 0 and zoom 1. -/
def initEditorState (layout : Rect) : EditorState :=
  { image :=
      { left := layout.left
        top := layout.top
        width := layout.width
        height := layout.height
        isFlippedX := false
        isFlippedY := false
        rotation := 0
        zoomLevel := 1 }
    cropper :=
      { left := layout.left
        top := layout.top
        width := layout.width
        height := layout.height } }

/-- `handleFlipX` from `src/index.tsx`: if `rotation % 180 === 0` toggle
`isFlippedX`, otherwise toggle `isFlippedY`. -/
def handleFlipX (s : EditorState) : EditorState :=
  if s.image.rotation % 180 = 0 then
    { s with image := { s.image with isFlippedX := !s.image.isFlippedX } }
  else
    { s with image := { s.image with isFlippedY := !s.image.isFlippedY } }

/-- `handleFlipY` from `src/index.tsx`: if `rotation % 180 === 0` toggle
`isFlippedY`, otherwise toggle `isFlippedX`. -/
def handleFlipY (s : EditorState) : EditorState :=
  if s.image.rotation % 180 = 0 then
    { s with image := { s.image with isFlippedY := !s.image.isFlippedY } }
  else
    { s with image := { s.image with isFlippedX := !s.image.isFlippedX } }

/-- `handleRotateRight` from `src/index.tsx`:
`newRotation = rotation + 90; rotation = newRotation >= 360 ? 0 : newRotation`. -/
def handleRotateRight (s : EditorState) : EditorState :=
  let newRotation := s.image.rotation + 90
  { s with image :=
      { s.image with rotation := if newRotation ≥ 360 then 0 else newRotation } }

/-- `handleReset` from `src/index.tsx`: both shared-value records are `set`
back to the layout-derived initial values, regardless of the current state. -/
def handleReset (layout : Rect) (_s : EditorState) : EditorState :=
  { image :=
      { left := layout.left
        top := layout.top
        width := layout.width
        height := layout.height
        isFlippedX := false
        isFlippedY := false
        rotation := 0
        zoomLevel := 1 }
    cropper :=
      { left := layout.left
        top := layout.top
        width := layout.width
        height := layout.height } }

/-- The `onUpdate` body of `pinchGesture`: `gestureScale` is the zoom level
captured at gesture start; the new zoom is
`clamp(gestureScale * event.scale, 0.1, 2)`. -/
def pinchUpdate (gestureScale scale : ℚ) (s : EditorState) : EditorState :=
  { s with image :=
      { s.image with zoomLevel := rclamp (gestureScale * scale) (1/10) 2 } }

/-- The `onUpdate` body of `panGesture`: `translationStartX/Y` hold the
cropper's left/top captured at gesture start, `dx/dy` are the cumulative
event translations; left/top are clamped to keep the cropper inside the
layout. -/
def panUpdate (layout : Rect) (translationStartX translationStartY dx dy : ℚ)
    (s : EditorState) : EditorState :=
  let translationX := translationStartX + dx
  let translationY := translationStartY + dy
  let maxRight := layout.left + layout.width - s.cropper.width
  let maxBottom := layout.top + layout.height - s.cropper.height
  { s with cropper :=
      { s.cropper with
        left := rclamp translationX layout.left maxRight
        top := rclamp translationY layout.top maxBottom } }

/-- Which vertical crop edge is being touched (`verticalEdgeBeingTouched`). -/
inductive VEdge | left | right
  deriving Repr, DecidableEq

/-- Which horizontal crop edge is being touched (`horizontalEdgeBeingTouched`). -/
inductive HEdge | top | bottom
  deriving Repr, DecidableEq

/-- The vertical-edge half of `cropGesture`'s `onUpdate`: `start` is the
cropper rectangle captured at gesture start (`cropStartX`, `cropWidthStart`,
...); the translation is clamped before being applied. -/
def cropUpdateV (layout : Rect) (v : Option VEdge) (start : Rect) (dx : ℚ)
    (s : EditorState) : EditorState :=
  match v with
  | some VEdge.left =>
      let maximumAllowedTranslationX := start.width - CROPPER_MIN_SIZE
      let minimumAllowedTranslationX := layout.left - start.left
      let totalTranslationX :=
        rclamp dx minimumAllowedTranslationX maximumAllowedTranslationX
      { s with cropper :=
          { s.cropper with
            left := start.left + totalTranslationX
            width := start.width - totalTranslationX } }
  | some VEdge.right =>
      let maximumAllowedTranslationX :=
        layout.left + layout.width - (start.left + start.width)
      let minimumAllowedTranslationX := -start.width + CROPPER_MIN_SIZE
      let totalTranslationX :=
        rclamp dx minimumAllowedTranslationX maximumAllowedTranslationX
      { s with cropper :=
          { s.cropper with width := start.width + totalTranslationX } }
  | none => s

/-- The horizontal-edge half of `cropGesture`'s `onUpdate`. -/
def cropUpdateH (layout : Rect) (h : Option HEdge) (start : Rect) (dy : ℚ)
    (s : EditorState) : EditorState :=
  match h with
  | some HEdge.top =>
      let maximumAllowedTranslationY := start.height - CROPPER_MIN_SIZE
      let minimumAllowedTranslationY := layout.top - start.top
      let totalTranslationY :=
        rclamp dy minimumAllowedTranslationY maximumAllowedTranslationY
      { s with cropper :=
          { s.cropper with
            top := start.top + totalTranslationY
            height := start.height - totalTranslationY } }
  | some HEdge.bottom =>
      let maximumAllowedTranslationY :=
        layout.top + layout.height - (start.top + start.height)
      let minimumAllowedTranslationY := -start.height + CROPPER_MIN_SIZE
      let totalTranslationY :=
        rclamp dy minimumAllowedTranslationY maximumAllowedTranslationY
      { s with cropper :=
          { s.cropper with height := start.height + totalTranslationY } }
  | none => s

/-- One tick of `cropGesture`'s `onUpdate`: the vertical-edge branch runs
first, then the horizontal-edge branch on the already-updated state, exactly
as the four `if` blocks run in the source. -/
def cropUpdate (layout : Rect) (v : Option VEdge) (h : Option HEdge)
    (start : Rect) (dx dy : ℚ) (s : EditorState) : EditorState :=
  cropUpdateH layout h start dy (cropUpdateV layout v start dx s)

/-- One user-level operation on the editor: a control-surface call, or a
whole gesture.  A gesture is its per-tick cumulative translations (for pinch,
the per-tick scale factors); its baselines are captured from the state at
gesture start, as in the `onStart` handlers. -/
inductive Op where
  | flipX : Op
  | flipY : Op
  | rotateRight : Op
  | reset : Op
  | pinch (updates : List ℚ) : Op
  | pan (updates : List (ℚ × ℚ)) : Op
  | cropResize (v : Option VEdge) (h : Option HEdge)
      (updates : List (ℚ × ℚ)) : Op

/-- Run one operation.  Gesture baselines (`gestureScale`,
`translationStartX/Y`, `cropStartX/Y`, `cropWidthStart`, `cropHeightStart`)
are captured from the state at gesture start and stay fixed across the
gesture's updates. -/
def applyOp (layout : Rect) (s : EditorState) : Op → EditorState
  | Op.flipX => handleFlipX s
  | Op.flipY => handleFlipY s
  | Op.rotateRight => handleRotateRight s
  | Op.reset => handleReset layout s
  | Op.pinch updates =>
      updates.foldl (fun st sc => pinchUpdate s.image.zoomLevel sc st) s
  | Op.pan updates =>
      updates.foldl
        (fun st d => panUpdate layout s.cropper.left s.cropper.top d.1 d.2 st) s
  | Op.cropResize v h updates =>
      updates.foldl (fun st d => cropUpdate layout v h s.cropper d.1 d.2 st) s

/-- The state reached from the layout-seeded initial state by a sequence of
operations.  Since gestures carry their update lists, every state after any
individual gesture tick is `reach layout ops` for a suitable `ops` (truncate
the last gesture's update list). -/
def reach (layout : Rect) (ops : List Op) : EditorState :=
  ops.foldl (applyOp layout) (initEditorState layout)

/-- Modelled from the spec: the Save Projector of §4.4.  The published
`save()` returns an `EditResult`; in `src/index.tsx` the projection body is
absent (only the containment guard and an `onSave(source.uri)` call remain),
while the README and the example app consume the `EditResult` fields, so the
projection itself is modelled from the spec's algorithm. -/
def project (s : EditorState) (src : SourceImage) : EditResult :=
  let swapped := s.image.rotation % 180 ≠ 0
  let sourceW := if swapped then src.pixelHeight else src.pixelWidth
  let sourceH := if swapped then src.pixelWidth else src.pixelHeight
  let viewW := if swapped then s.image.height else s.image.width
  let viewH := if swapped then s.image.width else s.image.height
  { cropLeftOffset := (s.cropper.left - s.image.left) / viewW * sourceW
    cropTopOffset := (s.cropper.top - s.image.top) / viewH * sourceH
    cropWidth := s.cropper.width / viewW * sourceW
    cropHeight := s.cropper.height / viewH * sourceH
    isFlippedX := s.image.isFlippedX
    isFlippedY := s.image.isFlippedY
    rotation := s.image.rotation
    zoomLevel := s.image.zoomLevel }

/-- `handleSave` from `src/index.tsx`: reject (returning no result and
leaving the state untouched) when the source uri is missing or the cropper
is not inside the image's bounding box; otherwise produce the projected
`EditResult` (success branch modelled from the spec, see `project`).
`hasSource` is the truthiness of `source.uri`.  The state is returned
unchanged in both cases: `handleSave` only reads the shared values. -/
def handleSave (hasSource : Bool) (src : SourceImage) (s : EditorState) :
    Option EditResult × EditorState :=
  if !hasSource
      ∨ s.cropper.left < s.image.left
      ∨ s.cropper.top < s.image.top
      ∨ s.cropper.left + s.cropper.width > s.image.left + s.image.width
      ∨ s.cropper.top + s.cropper.height > s.image.top + s.image.height
  then (none, s)
  else (some (project s src), s)

/-- The documented CropRect invariant: fully contained in the layout's
bounds, and at least `CROPPER_MIN_SIZE` on each axis. -/
def cropInv (layout c : Rect) : Prop :=
  (layout.left ≤ c.left ∧ c.left + c.width ≤ layout.left + layout.width
      ∧ CROPPER_MIN_SIZE ≤ c.width)
    ∧ (layout.top ≤ c.top ∧ c.top + c.height ≤ layout.top + layout.height
      ∧ CROPPER_MIN_SIZE ≤ c.height)

instance (layout c : Rect) : Decidable (cropInv layout c) := by
  unfold cropInv
  infer_instance

/-- The image bounding box never leaves its layout-seeded values. -/
def imageBoxEq (layout : Rect) (s : EditorState) : Prop :=
  s.image.left = layout.left ∧ s.image.top = layout.top
    ∧ s.image.width = layout.width ∧ s.image.height = layout.height

/-- The zoom level stays inside `[0.1, 2]`. -/
def zoomInv (s : EditorState) : Prop :=
  1/10 ≤ s.image.zoomLevel ∧ s.image.zoomLevel ≤ 2

/-- The rotation is one of the four right angles. -/
def rotOk (s : EditorState) : Prop :=
  s.image.rotation = 0 ∨ s.image.rotation = 90
    ∨ s.image.rotation = 180 ∨ s.image.rotation = 270

theorem rclamp_le (v lo hi : ℚ) : rclamp v lo hi ≤ hi :=
  min_le_right _ _

theorem le_rclamp (v lo hi : ℚ) (h : lo ≤ hi) : lo ≤ rclamp v lo hi :=
  le_min (le_max_right _ _) h

theorem rclamp_eq_of_ge (v lo hi : ℚ) (hlo : lo ≤ hi) (hv : hi ≤ v) :
    rclamp v lo hi = hi := by
  unfold rclamp
  rw [max_eq_left (hlo.trans hv), min_eq_right hv]

theorem foldl_preserve {α β : Type} (P : α → Prop) (f : α → β → α)
    (hf : ∀ a b, P a → P (f a b)) :
    ∀ (l : List β) (a : α), P a → P (l.foldl f a)
  | [], _, ha => ha
  | b :: l, a, ha => foldl_preserve P f hf l (f a b) (hf a b ha)

theorem panUpdate_cropInv (layout : Rect) (sx sy dx dy : ℚ) (s : EditorState)
    (hs : cropInv layout s.cropper) :
    cropInv layout (panUpdate layout sx sy dx dy s).cropper := by
  obtain ⟨⟨hx1, hx2, hx3⟩, hy1, hy2, hy3⟩ := hs
  have hxw : s.cropper.width ≤ layout.width := by linarith
  have hyh : s.cropper.height ≤ layout.height := by linarith
  have hL1 := le_rclamp (sx + dx) layout.left
    (layout.left + layout.width - s.cropper.width) (by linarith)
  have hL2 := rclamp_le (sx + dx) layout.left
    (layout.left + layout.width - s.cropper.width)
  have hT1 := le_rclamp (sy + dy) layout.top
    (layout.top + layout.height - s.cropper.height) (by linarith)
  have hT2 := rclamp_le (sy + dy) layout.top
    (layout.top + layout.height - s.cropper.height)
  simp only [panUpdate, cropInv]
  refine ⟨⟨hL1, by linarith, hx3⟩, hT1, by linarith, hy3⟩

theorem cropUpdateV_inv (layout : Rect) (v : Option VEdge) (b : Rect) (dx : ℚ)
    (s : EditorState) (hb : cropInv layout b)
    (hs : cropInv layout s.cropper)
    (hr : v = some VEdge.right → s.cropper.left = b.left) :
    cropInv layout (cropUpdateV layout v b dx s).cropper
      ∧ (v = some VEdge.right → (cropUpdateV layout v b dx s).cropper.left = b.left)
      ∧ (cropUpdateV layout v b dx s).cropper.top = s.cropper.top
      ∧ (cropUpdateV layout v b dx s).cropper.height = s.cropper.height := by
  obtain ⟨⟨hbx1, hbx2, hbx3⟩, _⟩ := hb
  obtain ⟨⟨hsx1, hsx2, hsx3⟩, hsy⟩ := hs
  cases v with
  | none =>
    exact ⟨⟨⟨hsx1, hsx2, hsx3⟩, hsy⟩, ⟨fun hc => Option.noConfusion hc, rfl, rfl⟩⟩
  | some ve =>
    cases ve with
    | left =>
      have hlohi : layout.left - b.left ≤ b.width - CROPPER_MIN_SIZE := by linarith
      have h1 := le_rclamp dx (layout.left - b.left) (b.width - CROPPER_MIN_SIZE) hlohi
      have h2 := rclamp_le dx (layout.left - b.left) (b.width - CROPPER_MIN_SIZE)
      refine ⟨⟨⟨?_, ?_, ?_⟩, hsy⟩,
        ⟨fun hc => Option.noConfusion hc fun h => VEdge.noConfusion h, rfl, rfl⟩⟩
      · show layout.left ≤ b.left + rclamp dx _ _
        linarith
      · show (b.left + rclamp dx _ _) + (b.width - rclamp dx _ _)
          ≤ layout.left + layout.width
        linarith
      · show CROPPER_MIN_SIZE ≤ b.width - rclamp dx _ _
        linarith
    | right =>
      have hsl := hr rfl
      have hlohi : -b.width + CROPPER_MIN_SIZE
          ≤ layout.left + layout.width - (b.left + b.width) := by linarith
      have h1 := le_rclamp dx (-b.width + CROPPER_MIN_SIZE)
        (layout.left + layout.width - (b.left + b.width)) hlohi
      have h2 := rclamp_le dx (-b.width + CROPPER_MIN_SIZE)
        (layout.left + layout.width - (b.left + b.width))
      refine ⟨⟨⟨hsx1, ?_, ?_⟩, hsy⟩, ⟨fun _ => hsl, rfl, rfl⟩⟩
      · show s.cropper.left + (b.width + rclamp dx _ _) ≤ layout.left + layout.width
        rw [hsl]
        linarith
      · show CROPPER_MIN_SIZE ≤ b.width + rclamp dx _ _
        linarith

theorem cropUpdateH_inv (layout : Rect) (h : Option HEdge) (b : Rect) (dy : ℚ)
    (s : EditorState) (hb : cropInv layout b)
    (hs : cropInv layout s.cropper)
    (hr : h = some HEdge.bottom → s.cropper.top = b.top) :
    cropInv layout (cropUpdateH layout h b dy s).cropper
      ∧ (h = some HEdge.bottom → (cropUpdateH layout h b dy s).cropper.top = b.top)
      ∧ (cropUpdateH layout h b dy s).cropper.left = s.cropper.left
      ∧ (cropUpdateH layout h b dy s).cropper.width = s.cropper.width := by
  obtain ⟨_, hby1, hby2, hby3⟩ := hb
  obtain ⟨hsx, hsy1, hsy2, hsy3⟩ := hs
  cases h with
  | none =>
    exact ⟨⟨hsx, hsy1, hsy2, hsy3⟩, ⟨fun hc => Option.noConfusion hc, rfl, rfl⟩⟩
  | some he =>
    cases he with
    | top =>
      have hlohi : layout.top - b.top ≤ b.height - CROPPER_MIN_SIZE := by linarith
      have h1 := le_rclamp dy (layout.top - b.top) (b.height - CROPPER_MIN_SIZE) hlohi
      have h2 := rclamp_le dy (layout.top - b.top) (b.height - CROPPER_MIN_SIZE)
      refine ⟨⟨hsx, ?_, ?_, ?_⟩,
        ⟨fun hc => Option.noConfusion hc fun h => HEdge.noConfusion h, rfl, rfl⟩⟩
      · show layout.top ≤ b.top + rclamp dy _ _
        linarith
      · show (b.top + rclamp dy _ _) + (b.height - rclamp dy _ _)
          ≤ layout.top + layout.height
        linarith
      · show CROPPER_MIN_SIZE ≤ b.height - rclamp dy _ _
        linarith
    | bottom =>
      have hst := hr rfl
      have hlohi : -b.height + CROPPER_MIN_SIZE
          ≤ layout.top + layout.height - (b.top + b.height) := by linarith
      have h1 := le_rclamp dy (-b.height + CROPPER_MIN_SIZE)
        (layout.top + layout.height - (b.top + b.height)) hlohi
      have h2 := rclamp_le dy (-b.height + CROPPER_MIN_SIZE)
        (layout.top + layout.height - (b.top + b.height))
      refine ⟨⟨hsx, hsy1, ?_, ?_⟩, ⟨fun _ => hst, rfl, rfl⟩⟩
      · show s.cropper.top + (b.height + rclamp dy _ _) ≤ layout.top + layout.height
        rw [hst]
        linarith
      · show CROPPER_MIN_SIZE ≤ b.height + rclamp dy _ _
        linarith

/-- One crop-gesture tick preserves the crop invariant together with the
left/top tracking facts needed for the right/bottom edges. -/
theorem cropUpdate_inv (layout : Rect) (v : Option VEdge) (h : Option HEdge)
    (b : Rect) (dx dy : ℚ) (s : EditorState) (hb : cropInv layout b)
    (hq : cropInv layout s.cropper
      ∧ (v = some VEdge.right → s.cropper.left = b.left)
      ∧ (h = some HEdge.bottom → s.cropper.top = b.top)) :
    cropInv layout (cropUpdate layout v h b dx dy s).cropper
      ∧ (v = some VEdge.right → (cropUpdate layout v h b dx dy s).cropper.left = b.left)
      ∧ (h = some HEdge.bottom → (cropUpdate layout v h b dx dy s).cropper.top = b.top) := by
  obtain ⟨hs, hrv, hrh⟩ := hq
  obtain ⟨hv1, hv2, hv3, hv4⟩ := cropUpdateV_inv layout v b dx s hb hs hrv
  obtain ⟨hh1, hh2, hh3, hh4⟩ :=
    cropUpdateH_inv layout h b dy (cropUpdateV layout v b dx s) hb hv1
      (fun hh => (hv3.trans (hrh hh)))
  exact ⟨hh1, fun hv => (hh3.trans (hv2 hv)), hh2⟩

theorem handleFlipX_geom (s : EditorState) :
    (handleFlipX s).cropper = s.cropper
      ∧ (handleFlipX s).image.left = s.image.left
      ∧ (handleFlipX s).image.top = s.image.top
      ∧ (handleFlipX s).image.width = s.image.width
      ∧ (handleFlipX s).image.height = s.image.height
      ∧ (handleFlipX s).image.rotation = s.image.rotation
      ∧ (handleFlipX s).image.zoomLevel = s.image.zoomLevel := by
  unfold handleFlipX
  split <;> exact ⟨rfl, rfl, rfl, rfl, rfl, rfl, rfl⟩

theorem handleFlipY_geom (s : EditorState) :
    (handleFlipY s).cropper = s.cropper
      ∧ (handleFlipY s).image.left = s.image.left
      ∧ (handleFlipY s).image.top = s.image.top
      ∧ (handleFlipY s).image.width = s.image.width
      ∧ (handleFlipY s).image.height = s.image.height
      ∧ (handleFlipY s).image.rotation = s.image.rotation
      ∧ (handleFlipY s).image.zoomLevel = s.image.zoomLevel := by
  unfold handleFlipY
  split <;> exact ⟨rfl, rfl, rfl, rfl, rfl, rfl, rfl⟩

theorem cropUpdateV_image (layout : Rect) (v : Option VEdge) (b : Rect)
    (dx : ℚ) (s : EditorState) :
    (cropUpdateV layout v b dx s).image = s.image := by
  cases v with
  | none => rfl
  | some ve => cases ve <;> rfl

theorem cropUpdateH_image (layout : Rect) (h : Option HEdge) (b : Rect)
    (dy : ℚ) (s : EditorState) :
    (cropUpdateH layout h b dy s).image = s.image := by
  cases h with
  | none => rfl
  | some he => cases he <;> rfl

theorem cropUpdate_image (layout : Rect) (v : Option VEdge) (h : Option HEdge)
    (b : Rect) (dx dy : ℚ) (s : EditorState) :
    (cropUpdate layout v h b dx dy s).image = s.image := by
  unfold cropUpdate
  rw [cropUpdateH_image, cropUpdateV_image]

theorem cropInv_layout_seed (layout : Rect)
    (hw : CROPPER_MIN_SIZE ≤ layout.width) (hh : CROPPER_MIN_SIZE ≤ layout.height) :
    cropInv layout ⟨layout.left, layout.top, layout.width, layout.height⟩ :=
  ⟨⟨le_refl _, le_refl _, hw⟩, le_refl _, le_refl _, hh⟩

theorem handleRotateRight_geom (s : EditorState) :
    (handleRotateRight s).cropper = s.cropper
      ∧ (handleRotateRight s).image.left = s.image.left
      ∧ (handleRotateRight s).image.top = s.image.top
      ∧ (handleRotateRight s).image.width = s.image.width
      ∧ (handleRotateRight s).image.height = s.image.height
      ∧ (handleRotateRight s).image.isFlippedX = s.image.isFlippedX
      ∧ (handleRotateRight s).image.isFlippedY = s.image.isFlippedY
      ∧ (handleRotateRight s).image.zoomLevel = s.image.zoomLevel :=
  ⟨rfl, rfl, rfl, rfl, rfl, rfl, rfl, rfl⟩

/-- `cropInv` is preserved by every single operation. -/
theorem applyOp_cropInv (layout : Rect)
    (hw : CROPPER_MIN_SIZE ≤ layout.width) (hh : CROPPER_MIN_SIZE ≤ layout.height)
    (s : EditorState) (op : Op) (hs : cropInv layout s.cropper) :
    cropInv layout (applyOp layout s op).cropper := by
  cases op with
  | flipX => rw [applyOp, (handleFlipX_geom s).1]; exact hs
  | flipY => rw [applyOp, (handleFlipY_geom s).1]; exact hs
  | rotateRight => rw [applyOp, (handleRotateRight_geom s).1]; exact hs
  | reset => exact cropInv_layout_seed layout hw hh
  | pinch updates =>
    have hstep : ∀ (st : EditorState) (sc : ℚ), st.cropper = s.cropper →
        (pinchUpdate s.image.zoomLevel sc st).cropper = s.cropper :=
      fun _ _ hp => hp
    have hfold := foldl_preserve (fun st => st.cropper = s.cropper)
      (fun st sc => pinchUpdate s.image.zoomLevel sc st) hstep updates s rfl
    rw [applyOp, hfold]
    exact hs
  | pan updates =>
    have hstep : ∀ (st : EditorState) (d : ℚ × ℚ), cropInv layout st.cropper →
        cropInv layout (panUpdate layout s.cropper.left s.cropper.top d.1 d.2 st).cropper :=
      fun st d hp => panUpdate_cropInv layout s.cropper.left s.cropper.top d.1 d.2 st hp
    exact foldl_preserve (fun st => cropInv layout st.cropper)
      (fun st d => panUpdate layout s.cropper.left s.cropper.top d.1 d.2 st)
      hstep updates s hs
  | cropResize v h updates =>
    have hstep : ∀ (st : EditorState) (d : ℚ × ℚ),
        (cropInv layout st.cropper
          ∧ (v = some VEdge.right → st.cropper.left = s.cropper.left)
          ∧ (h = some HEdge.bottom → st.cropper.top = s.cropper.top)) →
        (cropInv layout (cropUpdate layout v h s.cropper d.1 d.2 st).cropper
          ∧ (v = some VEdge.right →
              (cropUpdate layout v h s.cropper d.1 d.2 st).cropper.left = s.cropper.left)
          ∧ (h = some HEdge.bottom →
              (cropUpdate layout v h s.cropper d.1 d.2 st).cropper.top = s.cropper.top)) :=
      fun st d hp => cropUpdate_inv layout v h s.cropper d.1 d.2 st hs hp
    have hfold := foldl_preserve
      (fun st => cropInv layout st.cropper
        ∧ (v = some VEdge.right → st.cropper.left = s.cropper.left)
        ∧ (h = some HEdge.bottom → st.cropper.top = s.cropper.top))
      (fun st d => cropUpdate layout v h s.cropper d.1 d.2 st)
      hstep updates s ⟨hs, fun _ => rfl, fun _ => rfl⟩
    exact hfold.1

/-- `cropInv` holds in every reachable state (layouts at least
`CROPPER_MIN_SIZE` on each axis). -/
theorem reach_cropInv (layout : Rect)
    (hw : CROPPER_MIN_SIZE ≤ layout.width) (hh : CROPPER_MIN_SIZE ≤ layout.height)
    (ops : List Op) : cropInv layout (reach layout ops).cropper :=
  foldl_preserve (fun st => cropInv layout st.cropper) (applyOp layout)
    (fun st op hp => applyOp_cropInv layout hw hh st op hp) ops
    (initEditorState layout) (cropInv_layout_seed layout hw hh)

theorem pinch_fold_image_geom (base : ℚ) (updates : List ℚ)
    (s : EditorState) :
    let r := updates.foldl (fun st sc => pinchUpdate base sc st) s
    r.image.left = s.image.left ∧ r.image.top = s.image.top
      ∧ r.image.width = s.image.width ∧ r.image.height = s.image.height
      ∧ r.image.rotation = s.image.rotation := by
  intro r
  refine foldl_preserve (fun st => st.image.left = s.image.left
      ∧ st.image.top = s.image.top ∧ st.image.width = s.image.width
      ∧ st.image.height = s.image.height ∧ st.image.rotation = s.image.rotation)
    (fun st sc => pinchUpdate base sc st) ?_ updates s
    ⟨rfl, rfl, rfl, rfl, rfl⟩
  intro st sc hp
  exact hp

theorem pan_fold_image (layout : Rect) (sx sy : ℚ) (updates : List (ℚ × ℚ))
    (s : EditorState) :
    (updates.foldl (fun st d => panUpdate layout sx sy d.1 d.2 st) s).image
      = s.image := by
  refine foldl_preserve (fun st => st.image = s.image)
    (fun st d => panUpdate layout sx sy d.1 d.2 st) ?_ updates s rfl
  intro st d hp
  exact hp

theorem crop_fold_image (layout : Rect) (v : Option VEdge) (h : Option HEdge)
    (b : Rect) (updates : List (ℚ × ℚ)) (s : EditorState) :
    (updates.foldl (fun st d => cropUpdate layout v h b d.1 d.2 st) s).image
      = s.image := by
  refine foldl_preserve (fun st => st.image = s.image)
    (fun st d => cropUpdate layout v h b d.1 d.2 st) ?_ updates s rfl
  intro st d hp
  exact (cropUpdate_image layout v h b d.1 d.2 st).trans hp

/-- No operation ever changes the image bounding box fields. -/
theorem applyOp_imageBoxEq (layout : Rect) (s : EditorState) (op : Op)
    (hs : imageBoxEq layout s) : imageBoxEq layout (applyOp layout s op) := by
  obtain ⟨h1, h2, h3, h4⟩ := hs
  cases op with
  | flipX =>
    obtain ⟨_, g1, g2, g3, g4, _, _⟩ := handleFlipX_geom s
    rw [applyOp]
    exact ⟨g1.trans h1, g2.trans h2, g3.trans h3, g4.trans h4⟩
  | flipY =>
    obtain ⟨_, g1, g2, g3, g4, _, _⟩ := handleFlipY_geom s
    rw [applyOp]
    exact ⟨g1.trans h1, g2.trans h2, g3.trans h3, g4.trans h4⟩
  | rotateRight =>
    rw [applyOp]
    exact ⟨h1, h2, h3, h4⟩
  | reset =>
    rw [applyOp]
    exact ⟨rfl, rfl, rfl, rfl⟩
  | pinch updates =>
    obtain ⟨g1, g2, g3, g4, _⟩ :=
      pinch_fold_image_geom s.image.zoomLevel updates s
    rw [applyOp]
    exact ⟨g1.trans h1, g2.trans h2, g3.trans h3, g4.trans h4⟩
  | pan updates =>
    have g := pan_fold_image layout s.cropper.left s.cropper.top updates s
    rw [applyOp]
    unfold imageBoxEq
    rw [g]
    exact ⟨h1, h2, h3, h4⟩
  | cropResize v h updates =>
    have g := crop_fold_image layout v h s.cropper updates s
    rw [applyOp]
    unfold imageBoxEq
    rw [g]
    exact ⟨h1, h2, h3, h4⟩

/-- The image bounding box equals the layout in every reachable state. -/
theorem reach_imageBoxEq (layout : Rect) (ops : List Op) :
    imageBoxEq layout (reach layout ops) :=
  foldl_preserve (imageBoxEq layout) (applyOp layout)
    (fun st op hp => applyOp_imageBoxEq layout st op hp) ops
    (initEditorState layout) ⟨rfl, rfl, rfl, rfl⟩

/-- No operation can push the zoom level outside `[0.1, 2]`. -/
theorem applyOp_zoomInv (layout : Rect) (s : EditorState) (op : Op)
    (hs : zoomInv s) : zoomInv (applyOp layout s op) := by
  obtain ⟨h1, h2⟩ := hs
  cases op with
  | flipX =>
    obtain ⟨_, _, _, _, _, _, g⟩ := handleFlipX_geom s
    rw [applyOp]
    exact ⟨g ▸ h1, g ▸ h2⟩
  | flipY =>
    obtain ⟨_, _, _, _, _, _, g⟩ := handleFlipY_geom s
    rw [applyOp]
    exact ⟨g ▸ h1, g ▸ h2⟩
  | rotateRight =>
    rw [applyOp]
    exact ⟨h1, h2⟩
  | reset =>
    rw [applyOp]
    exact ⟨by norm_num [handleReset], by norm_num [handleReset]⟩
  | pinch updates =>
    have hstep : ∀ (st : EditorState) (sc : ℚ), zoomInv st →
        zoomInv (pinchUpdate s.image.zoomLevel sc st) := by
      intro st sc _
      exact ⟨le_rclamp _ _ _ (by norm_num), rclamp_le _ _ _⟩
    rw [applyOp]
    exact foldl_preserve zoomInv
      (fun st sc => pinchUpdate s.image.zoomLevel sc st) hstep updates s ⟨h1, h2⟩
  | pan updates =>
    have g := pan_fold_image layout s.cropper.left s.cropper.top updates s
    rw [applyOp]
    unfold zoomInv
    rw [g]
    exact ⟨h1, h2⟩
  | cropResize v h updates =>
    have g := crop_fold_image layout v h s.cropper updates s
    rw [applyOp]
    unfold zoomInv
    rw [g]
    exact ⟨h1, h2⟩

/-- The zoom level is inside `[0.1, 2]` in every reachable state. -/
theorem reach_zoomInv (layout : Rect) (ops : List Op) :
    zoomInv (reach layout ops) :=
  foldl_preserve zoomInv (applyOp layout)
    (fun st op hp => applyOp_zoomInv layout st op hp) ops
    (initEditorState layout) ⟨by norm_num [initEditorState], by norm_num [initEditorState]⟩

theorem handleRotateRight_rotOk (s : EditorState) (hs : rotOk s) :
    rotOk (handleRotateRight s) := by
  unfold rotOk at hs ⊢
  unfold handleRotateRight
  rcases hs with h | h | h | h <;> rw [h] <;> simp

/-- Every operation keeps the rotation in `{0, 90, 180, 270}`. -/
theorem applyOp_rotOk (layout : Rect) (s : EditorState) (op : Op)
    (hs : rotOk s) : rotOk (applyOp layout s op) := by
  cases op with
  | flipX =>
    unfold rotOk at hs ⊢
    rw [applyOp, (handleFlipX_geom s).2.2.2.2.2.1]
    exact hs
  | flipY =>
    unfold rotOk at hs ⊢
    rw [applyOp, (handleFlipY_geom s).2.2.2.2.2.1]
    exact hs
  | rotateRight =>
    rw [applyOp]
    exact handleRotateRight_rotOk s hs
  | reset =>
    rw [applyOp]
    exact Or.inl rfl
  | pinch updates =>
    obtain ⟨_, _, _, _, g⟩ :=
      pinch_fold_image_geom s.image.zoomLevel updates s
    unfold rotOk at hs ⊢
    rw [applyOp, g]
    exact hs
  | pan updates =>
    have g := pan_fold_image layout s.cropper.left s.cropper.top updates s
    unfold rotOk at hs ⊢
    rw [applyOp, g]
    exact hs
  | cropResize v h updates =>
    have g := crop_fold_image layout v h s.cropper updates s
    unfold rotOk at hs ⊢
    rw [applyOp, g]
    exact hs

theorem reach_rotOk (layout : Rect) (ops : List Op) : rotOk (reach layout ops) :=
  foldl_preserve rotOk (applyOp layout)
    (fun st op hp => applyOp_rotOk layout st op hp) ops
    (initEditorState layout) (Or.inl rfl)

/-- Claim C6: `initialImageLayout` fits width when the image is wider than the
canvas (centering vertically) and fits height otherwise (centering
horizontally); the result lies inside the viewport and preserves the aspect
ratio; viewport 300 by 300 with aspect 2 yields the rectangle
(0, 75, 300, 150). -/
theorem initialImageLayout_spec (canvasWidth canvasHeight imageAspect : ℚ)
    (hw : 0 < canvasWidth) (hh : 0 < canvasHeight) (ha : 0 < imageAspect) :
    (imageAspect > canvasWidth / canvasHeight →
      initialImageLayout canvasWidth canvasHeight imageAspect =
        ⟨0, (canvasHeight - canvasWidth / imageAspect) / 2, canvasWidth,
          canvasWidth / imageAspect⟩)
      ∧ (¬ imageAspect > canvasWidth / canvasHeight →
        initialImageLayout canvasWidth canvasHeight imageAspect =
          ⟨(canvasWidth - canvasHeight * imageAspect) / 2, 0,
            canvasHeight * imageAspect, canvasHeight⟩)
      ∧ (0 ≤ (initialImageLayout canvasWidth canvasHeight imageAspect).left
        ∧ 0 ≤ (initialImageLayout canvasWidth canvasHeight imageAspect).top
        ∧ (initialImageLayout canvasWidth canvasHeight imageAspect).left
            + (initialImageLayout canvasWidth canvasHeight imageAspect).width
            ≤ canvasWidth
        ∧ (initialImageLayout canvasWidth canvasHeight imageAspect).top
            + (initialImageLayout canvasWidth canvasHeight imageAspect).height
            ≤ canvasHeight)
      ∧ (initialImageLayout canvasWidth canvasHeight imageAspect).width
          = imageAspect * (initialImageLayout canvasWidth canvasHeight imageAspect).height
      ∧ initialImageLayout 300 300 2 = ⟨0, 75, 300, 150⟩ := by
  by_cases hc : imageAspect > canvasWidth / canvasHeight
  · have hfit : initialImageLayout canvasWidth canvasHeight imageAspect =
        ⟨0, (canvasHeight - canvasWidth / imageAspect) / 2, canvasWidth,
          canvasWidth / imageAspect⟩ := by
      simp [initialImageLayout, hc]
    have hlt : canvasWidth < imageAspect * canvasHeight := (div_lt_iff₀ hh).mp hc
    have hfith : canvasWidth / imageAspect ≤ canvasHeight := by
      rw [div_le_iff₀ ha]
      nlinarith
    have hpos : 0 < canvasWidth / imageAspect := div_pos hw ha
    refine ⟨fun _ => hfit, fun hcon => absurd hc hcon, ?_, ?_, ?_⟩
    · rw [hfit]
      refine ⟨le_refl 0, by linarith, by linarith, by linarith⟩
    · rw [hfit]
      show canvasWidth = imageAspect * (canvasWidth / imageAspect)
      field_simp
    · norm_num [initialImageLayout]
  · have hfit : initialImageLayout canvasWidth canvasHeight imageAspect =
        ⟨(canvasWidth - canvasHeight * imageAspect) / 2, 0,
          canvasHeight * imageAspect, canvasHeight⟩ := by
      simp [initialImageLayout, hc]
    have hle : canvasHeight * imageAspect ≤ canvasWidth := by
      have h2 := not_lt.mp hc
      rw [le_div_iff₀ hh] at h2
      nlinarith
    refine ⟨fun hcon => absurd hcon hc, fun _ => hfit, ?_, ?_, ?_⟩
    · rw [hfit]
      refine ⟨by linarith, le_refl 0, by linarith, by linarith⟩
    · rw [hfit]
      show canvasHeight * imageAspect = imageAspect * canvasHeight
      ring
    · norm_num [initialImageLayout]

/-- Witness for `initialImageLayout_spec` at viewport 300 by 300, aspect 2. -/
theorem initialImageLayout_spec_witness :
    initialImageLayout 300 300 2 = ⟨0, 75, 300, 150⟩ :=
  (initialImageLayout_spec 300 300 2 (by norm_num) (by norm_num)
    (by norm_num)).2.2.2.2

/-- Claim C9: `reset()` restores both records to the layout-derived initial
values regardless of any prior operation history. -/
theorem reset_restores (layout : Rect) (s : EditorState) (ops : List Op) :
    handleReset layout s = initEditorState layout
      ∧ reach layout (ops ++ [Op.reset]) = initEditorState layout
      ∧ (initEditorState layout).image =
          ⟨layout.left, layout.top, layout.width, layout.height, false, false, 0, 1⟩
      ∧ (initEditorState layout).cropper =
          ⟨layout.left, layout.top, layout.width, layout.height⟩ := by
  refine ⟨rfl, ?_, rfl, rfl⟩
  unfold reach
  rw [List.foldl_append]
  rfl

/-- Claim C5: on the four right angles, `rotateRight` sets the rotation to
`(rotation + 90) mod 360` and leaves every other field of both records
unchanged. -/
theorem rotateRight_mod360 (s : EditorState)
    (h : s.image.rotation = 0 ∨ s.image.rotation = 90
      ∨ s.image.rotation = 180 ∨ s.image.rotation = 270) :
    handleRotateRight s =
      { s with image :=
          { s.image with rotation := (s.image.rotation + 90) % 360 } } := by
  unfold handleRotateRight
  rcases h with h | h | h | h <;> rw [h] <;> norm_num

/-- Witness for `rotateRight_mod360` at rotation 270. -/
theorem rotateRight_mod360_witness :
    handleRotateRight ⟨⟨0, 75, 300, 150, false, false, 270, 1⟩, ⟨0, 75, 300, 150⟩⟩
      = ⟨⟨0, 75, 300, 150, false, false, 0, 1⟩, ⟨0, 75, 300, 150⟩⟩ :=
  rotateRight_mod360 ⟨⟨0, 75, 300, 150, false, false, 270, 1⟩, ⟨0, 75, 300, 150⟩⟩
    (Or.inr (Or.inr (Or.inr rfl)))

/-- Claim C4: when `rotation % 180 = 0` the flip requests map directly to
their own flags; when `rotation % 180 = 90` they are cross-wired; in all
cases every other field of the image record and the whole crop rectangle are
unchanged (captured by the record-update equalities). -/
theorem flip_crosswired (s : EditorState) :
    (s.image.rotation % 180 = 0 →
      handleFlipX s =
          { s with image := { s.image with isFlippedX := !s.image.isFlippedX } }
        ∧ handleFlipY s =
          { s with image := { s.image with isFlippedY := !s.image.isFlippedY } })
      ∧ (s.image.rotation % 180 = 90 →
        handleFlipX s =
            { s with image := { s.image with isFlippedY := !s.image.isFlippedY } }
          ∧ handleFlipY s =
            { s with image := { s.image with isFlippedX := !s.image.isFlippedX } }) := by
  constructor
  · intro h0
    constructor <;> simp [handleFlipX, handleFlipY, h0]
  · intro h90
    have hne : ¬ s.image.rotation % 180 = 0 := by omega
    constructor <;> simp [handleFlipX, handleFlipY, hne]

/-- Witness for `flip_crosswired`: direct mapping at rotation 0, cross-wired
at rotation 90. -/
theorem flip_crosswired_witness :
    handleFlipX ⟨⟨0, 75, 300, 150, false, false, 0, 1⟩, ⟨0, 75, 300, 150⟩⟩
        = ⟨⟨0, 75, 300, 150, true, false, 0, 1⟩, ⟨0, 75, 300, 150⟩⟩
      ∧ handleFlipX ⟨⟨0, 75, 300, 150, false, false, 90, 1⟩, ⟨0, 75, 300, 150⟩⟩
        = ⟨⟨0, 75, 300, 150, false, true, 90, 1⟩, ⟨0, 75, 300, 150⟩⟩ :=
  ⟨((flip_crosswired ⟨⟨0, 75, 300, 150, false, false, 0, 1⟩, ⟨0, 75, 300, 150⟩⟩).1 rfl).1,
    ((flip_crosswired ⟨⟨0, 75, 300, 150, false, false, 90, 1⟩, ⟨0, 75, 300, 150⟩⟩).2 rfl).1⟩

/-- Claim C8: a pinch update sets the zoom to the clamp of baseline times
scale into [0.1, 2] and touches nothing else; hence in every reachable state
the zoom level lies in [0.1, 2]. -/
theorem pinch_zoom_clamped (layout : Rect) (gestureScale scale : ℚ)
    (s : EditorState) (ops : List Op) :
    pinchUpdate gestureScale scale s =
        { s with image :=
            { s.image with zoomLevel := rclamp (gestureScale * scale) (1/10) 2 } }
      ∧ (pinchUpdate gestureScale scale s).cropper = s.cropper
      ∧ 1/10 ≤ (reach layout ops).image.zoomLevel
      ∧ (reach layout ops).image.zoomLevel ≤ 2 := by
  obtain ⟨h1, h2⟩ := reach_zoomInv layout ops
  exact ⟨rfl, rfl, h1, h2⟩

theorem handleFlipX_involutive (s : EditorState) :
    handleFlipX (handleFlipX s) = s := by
  unfold handleFlipX
  by_cases h : s.image.rotation % 180 = 0 <;> simp [h]

theorem handleRotateRight_four (s : EditorState) (hs : rotOk s) :
    handleRotateRight^[4] s = s := by
  obtain ⟨⟨l, t, w, ht, fx, fy, r, z⟩, c⟩ := s
  rcases hs with h | h | h | h <;>
    simp only at h <;> subst h <;> rfl

theorem rot_iter_four_mul (k : ℕ) (s : EditorState) (hs : rotOk s) :
    handleRotateRight^[4 * k] s = s := by
  induction k with
  | zero => rfl
  | succ n ih =>
    have h4 : handleRotateRight^[4] s = s := handleRotateRight_four s hs
    calc handleRotateRight^[4 * (n + 1)] s
        = handleRotateRight^[4 * n + 4] s := by rw [Nat.mul_succ]
      _ = handleRotateRight^[4 * n] (handleRotateRight^[4] s) :=
          Function.iterate_add_apply _ _ _ _
      _ = handleRotateRight^[4 * n] s := by rw [h4]
      _ = s := ih

/-- Claim C7: in every reachable state, four `rotateRight`s are the identity,
two `flipX`s are the identity, and the `flipX` double-application identity
survives any interleaved multiple-of-4 block of `rotateRight`s. -/
theorem rotate_flip_identities (layout : Rect) (ops : List Op) (k : ℕ) :
    handleRotateRight^[4] (reach layout ops) = reach layout ops
      ∧ handleFlipX (handleFlipX (reach layout ops)) = reach layout ops
      ∧ handleFlipX (handleRotateRight^[4 * k] (handleFlipX (reach layout ops)))
          = reach layout ops := by
  have hrot := reach_rotOk layout ops
  refine ⟨handleRotateRight_four _ hrot, handleFlipX_involutive _, ?_⟩
  have hrotF : rotOk (handleFlipX (reach layout ops)) := by
    unfold rotOk at hrot ⊢
    rw [(handleFlipX_geom (reach layout ops)).2.2.2.2.2.1]
    exact hrot
  rw [rot_iter_four_mul k _ hrotF, handleFlipX_involutive]

/-- Claim C3: `save` returns the empty result exactly when the source is
missing or the cropper escapes the image bounding box, and it never modifies
the state (the embedding is a total function, so no exception is possible). -/
theorem save_rejects_iff (hasSource : Bool) (src : SourceImage) (s : EditorState) :
    ((handleSave hasSource src s).1 = none ↔
      hasSource = false
        ∨ s.cropper.left < s.image.left
        ∨ s.cropper.top < s.image.top
        ∨ s.cropper.left + s.cropper.width > s.image.left + s.image.width
        ∨ s.cropper.top + s.cropper.height > s.image.top + s.image.height)
      ∧ (handleSave hasSource src s).2 = s := by
  have hbool : ((!hasSource) = true) ↔ hasSource = false := by
    cases hasSource <;> simp
  unfold handleSave
  split
  next hcond =>
    refine ⟨⟨fun _ => ?_, fun _ => rfl⟩, rfl⟩
    rcases hcond with hb | hrest
    · exact Or.inl (hbool.mp hb)
    · exact Or.inr hrest
  next hcond =>
    refine ⟨⟨fun hc => Option.noConfusion hc, fun hrhs => ?_⟩, rfl⟩
    exfalso
    apply hcond
    rcases hrhs with hb | hrest
    · exact Or.inl (hbool.mpr hb)
    · exact Or.inr hrest

/-- Claim C1: when a source is present and the cropper lies inside the image
bounding box, `save` returns the EditResult of the spec's projection
algorithm (rotation parity swaps the source and view dimensions), echoing
flips, rotation and zoom; the spec's worked example evaluates as stated. -/
theorem save_projects (hasSource : Bool) (src : SourceImage) (s : EditorState)
    (h0 : hasSource = true)
    (h1 : s.image.left ≤ s.cropper.left)
    (h2 : s.image.top ≤ s.cropper.top)
    (h3 : s.cropper.left + s.cropper.width ≤ s.image.left + s.image.width)
    (h4 : s.cropper.top + s.cropper.height ≤ s.image.top + s.image.height) :
    (handleSave hasSource src s).1 = some
      { cropLeftOffset := (s.cropper.left - s.image.left)
          / (if s.image.rotation % 180 ≠ 0 then s.image.height else s.image.width)
          * (if s.image.rotation % 180 ≠ 0 then src.pixelHeight else src.pixelWidth)
        cropTopOffset := (s.cropper.top - s.image.top)
          / (if s.image.rotation % 180 ≠ 0 then s.image.width else s.image.height)
          * (if s.image.rotation % 180 ≠ 0 then src.pixelWidth else src.pixelHeight)
        cropWidth := s.cropper.width
          / (if s.image.rotation % 180 ≠ 0 then s.image.height else s.image.width)
          * (if s.image.rotation % 180 ≠ 0 then src.pixelHeight else src.pixelWidth)
        cropHeight := s.cropper.height
          / (if s.image.rotation % 180 ≠ 0 then s.image.width else s.image.height)
          * (if s.image.rotation % 180 ≠ 0 then src.pixelWidth else src.pixelHeight)
        isFlippedX := s.image.isFlippedX
        isFlippedY := s.image.isFlippedY
        rotation := s.image.rotation
        zoomLevel := s.image.zoomLevel }
      ∧ (handleSave true ⟨200, 100⟩ (initEditorState (initialImageLayout 300 300 2))).1
          = some ⟨0, 0, 200, 100, false, false, 0, 1⟩ := by
  constructor
  · subst h0
    have hcond : ¬ ((!true) = true
        ∨ s.cropper.left < s.image.left
        ∨ s.cropper.top < s.image.top
        ∨ s.cropper.left + s.cropper.width > s.image.left + s.image.width
        ∨ s.cropper.top + s.cropper.height > s.image.top + s.image.height) := by
      intro hcon
      rcases hcon with hb | hb | hb | hb | hb
      · simp at hb
      · linarith
      · linarith
      · linarith
      · linarith
    unfold handleSave
    rw [if_neg hcond]
    rfl
  · norm_num [handleSave, project, initEditorState, initialImageLayout]

/-- Witness for `save_projects`: the spec's worked example. -/
theorem save_projects_witness :
    (handleSave true ⟨200, 100⟩ (initEditorState (initialImageLayout 300 300 2))).1
      = some ⟨0, 0, 200, 100, false, false, 0, 1⟩ :=
  (save_projects true ⟨200, 100⟩ (initEditorState (initialImageLayout 300 300 2))
    rfl (le_refl _) (le_refl _) (le_refl _) (le_refl _)).2

theorem cropUpdateH_x (layout : Rect) (h : Option HEdge) (b : Rect) (dy : ℚ)
    (s : EditorState) :
    (cropUpdateH layout h b dy s).cropper.left = s.cropper.left
      ∧ (cropUpdateH layout h b dy s).cropper.width = s.cropper.width := by
  cases h with
  | none => exact ⟨rfl, rfl⟩
  | some he => cases he <;> exact ⟨rfl, rfl⟩

/-- Claim C2, counterexample: with a layout smaller than `CROPPER_MIN_SIZE`
(viewport 100 by 10 and a square image give the layout (45, 0, 10, 10), whose
left edge is activatable by a touch near x = 30), a single left-edge resize
tick with zero translation pushes the crop rectangle left of the layout
bound, because reanimated's `clamp` returns the upper bound when the bounds
are inverted (here `clamp(0, 0, -14) = -14`). -/
theorem crop_invariant_cex :
    (reach (initialImageLayout 100 10 1)
        [Op.cropResize (some VEdge.left) none [(0, 0)]]).cropper.left
      < (initialImageLayout 100 10 1).left := by
  norm_num [reach, initialImageLayout, initEditorState, applyOp, cropUpdate,
    cropUpdateV, cropUpdateH, rclamp, CROPPER_MIN_SIZE, CROP_PAN_GESTURE_HIT_SLOP,
    CROPPER_BORDER_WIDTH]

/-- Claim C2 (amended with the layout-size hypothesis the counterexample
forces): when the layout is at least `CROPPER_MIN_SIZE` on each axis, after
every individual pan or edge-resize update (and any other operation) the
crop rectangle stays inside the layout with both dimensions at least
`CROPPER_MIN_SIZE`; and a right-edge drag whose translation reaches or
exceeds the remaining room lands exactly on the layout's right bound. -/
theorem crop_invariant (layout : Rect)
    (hw : CROPPER_MIN_SIZE ≤ layout.width) (hh : CROPPER_MIN_SIZE ≤ layout.height) :
    (∀ ops : List Op,
      layout.left ≤ (reach layout ops).cropper.left
        ∧ (reach layout ops).cropper.left + (reach layout ops).cropper.width
            ≤ layout.left + layout.width
        ∧ layout.top ≤ (reach layout ops).cropper.top
        ∧ (reach layout ops).cropper.top + (reach layout ops).cropper.height
            ≤ layout.top + layout.height
        ∧ CROPPER_MIN_SIZE ≤ (reach layout ops).cropper.width
        ∧ CROPPER_MIN_SIZE ≤ (reach layout ops).cropper.height)
      ∧ (∀ (b : Rect) (ho : Option HEdge) (s : EditorState) (dx dy : ℚ),
        cropInv layout b → s.cropper.left = b.left →
        layout.left + layout.width - (b.left + b.width) ≤ dx →
        (cropUpdate layout (some VEdge.right) ho b dx dy s).cropper.left
          + (cropUpdate layout (some VEdge.right) ho b dx dy s).cropper.width
          = layout.left + layout.width) := by
  constructor
  · intro ops
    obtain ⟨⟨hx1, hx2, hx3⟩, hy1, hy2, hy3⟩ := reach_cropInv layout hw hh ops
    exact ⟨hx1, hx2, hy1, hy2, hx3, hy3⟩
  · intro b ho s dx dy hb hsl hdx
    obtain ⟨⟨hbx1, hbx2, hbx3⟩, _⟩ := hb
    have hlohi : -b.width + CROPPER_MIN_SIZE
        ≤ layout.left + layout.width - (b.left + b.width) := by linarith
    have htx := rclamp_eq_of_ge dx (-b.width + CROPPER_MIN_SIZE)
      (layout.left + layout.width - (b.left + b.width)) hlohi hdx
    obtain ⟨hxl, hxw⟩ := cropUpdateH_x layout ho b dy
      (cropUpdateV layout (some VEdge.right) b dx s)
    unfold cropUpdate
    rw [hxl, hxw]
    show s.cropper.left + (b.width + rclamp dx (-b.width + CROPPER_MIN_SIZE)
      (layout.left + layout.width - (b.left + b.width))) = layout.left + layout.width
    rw [htx, hsl]
    ring

/-- Witness for `crop_invariant` at layout (0, 75, 300, 150) after one pan
gesture overshooting both axes. -/
theorem crop_invariant_witness :
    (0:ℚ) ≤ (reach ⟨0, 75, 300, 150⟩ [Op.pan [(1000, -1000)]]).cropper.left
      ∧ (reach ⟨0, 75, 300, 150⟩ [Op.pan [(1000, -1000)]]).cropper.left
          + (reach ⟨0, 75, 300, 150⟩ [Op.pan [(1000, -1000)]]).cropper.width
          ≤ (0:ℚ) + 300
      ∧ (75:ℚ) ≤ (reach ⟨0, 75, 300, 150⟩ [Op.pan [(1000, -1000)]]).cropper.top
      ∧ (reach ⟨0, 75, 300, 150⟩ [Op.pan [(1000, -1000)]]).cropper.top
          + (reach ⟨0, 75, 300, 150⟩ [Op.pan [(1000, -1000)]]).cropper.height
          ≤ (75:ℚ) + 150
      ∧ CROPPER_MIN_SIZE ≤ (reach ⟨0, 75, 300, 150⟩ [Op.pan [(1000, -1000)]]).cropper.width
      ∧ CROPPER_MIN_SIZE ≤ (reach ⟨0, 75, 300, 150⟩ [Op.pan [(1000, -1000)]]).cropper.height :=
  (crop_invariant ⟨0, 75, 300, 150⟩
      (by norm_num [CROPPER_MIN_SIZE, CROP_PAN_GESTURE_HIT_SLOP, CROPPER_BORDER_WIDTH])
      (by norm_num [CROPPER_MIN_SIZE, CROP_PAN_GESTURE_HIT_SLOP, CROPPER_BORDER_WIDTH])).1
    [Op.pan [(1000, -1000)]]

/-- Claim C10, counterexample: on a degenerate layout (viewport 100 by 10,
square image, layout (45, 0, 10, 10)) a reachable left-edge resize tick
leaves the crop rectangle outside the image bounding box, so `save` rejects
geometrically even though a source is present. -/
theorem save_guard_cex :
    (handleSave true ⟨200, 100⟩
        (reach (initialImageLayout 100 10 1)
          [Op.cropResize (some VEdge.left) none [(0, 0)]])).1 = none := by
  norm_num [handleSave, reach, initialImageLayout, initEditorState, applyOp,
    cropUpdate, cropUpdateV, cropUpdateH, rclamp, CROPPER_MIN_SIZE,
    CROP_PAN_GESTURE_HIT_SLOP, CROPPER_BORDER_WIDTH]

/-- Claim C10 (amended with the layout-size hypothesis the counterexample
forces): when the layout is at least `CROPPER_MIN_SIZE` on each axis, the
image bounding box keeps its layout-seeded values in every reachable state,
and `save` with a present source never rejects: its geometric branch is
unreachable. -/
theorem image_box_static (layout : Rect) (src : SourceImage)
    (hw : CROPPER_MIN_SIZE ≤ layout.width) (hh : CROPPER_MIN_SIZE ≤ layout.height)
    (ops : List Op) :
    ((reach layout ops).image.left = layout.left
      ∧ (reach layout ops).image.top = layout.top
      ∧ (reach layout ops).image.width = layout.width
      ∧ (reach layout ops).image.height = layout.height)
      ∧ (handleSave true src (reach layout ops)).1
          = some (project (reach layout ops) src) := by
  obtain ⟨h1, h2, h3, h4⟩ := reach_imageBoxEq layout ops
  obtain ⟨⟨hx1, hx2, _⟩, hy1, hy2, _⟩ := reach_cropInv layout hw hh ops
  refine ⟨⟨h1, h2, h3, h4⟩, ?_⟩
  have hcond : ¬ ((!true) = true
      ∨ (reach layout ops).cropper.left < (reach layout ops).image.left
      ∨ (reach layout ops).cropper.top < (reach layout ops).image.top
      ∨ (reach layout ops).cropper.left + (reach layout ops).cropper.width
          > (reach layout ops).image.left + (reach layout ops).image.width
      ∨ (reach layout ops).cropper.top + (reach layout ops).cropper.height
          > (reach layout ops).image.top + (reach layout ops).image.height) := by
    intro hcon
    rcases hcon with hb | hb | hb | hb | hb
    · simp at hb
    · rw [h1] at hb
      linarith
    · rw [h2] at hb
      linarith
    · rw [h1, h3] at hb
      linarith
    · rw [h2, h4] at hb
      linarith
  unfold handleSave
  rw [if_neg hcond]

/-- Witness for `image_box_static` at layout (0, 75, 300, 150) after a
rotation. -/
theorem image_box_static_witness :
    ((reach ⟨0, 75, 300, 150⟩ [Op.rotateRight]).image.left = (0:ℚ)
      ∧ (reach ⟨0, 75, 300, 150⟩ [Op.rotateRight]).image.top = (75:ℚ)
      ∧ (reach ⟨0, 75, 300, 150⟩ [Op.rotateRight]).image.width = (300:ℚ)
      ∧ (reach ⟨0, 75, 300, 150⟩ [Op.rotateRight]).image.height = (150:ℚ))
      ∧ (handleSave true ⟨200, 100⟩ (reach ⟨0, 75, 300, 150⟩ [Op.rotateRight])).1
          = some (project (reach ⟨0, 75, 300, 150⟩ [Op.rotateRight]) ⟨200, 100⟩) :=
  image_box_static ⟨0, 75, 300, 150⟩ ⟨200, 100⟩
    (by norm_num [CROPPER_MIN_SIZE, CROP_PAN_GESTURE_HIT_SLOP, CROPPER_BORDER_WIDTH])
    (by norm_num [CROPPER_MIN_SIZE, CROP_PAN_GESTURE_HIT_SLOP, CROPPER_BORDER_WIDTH])
    [Op.rotateRight]

end ImageEditor